import Mathlib

/-!
# Redeploy orchestration of `docker-deploy` (`internal/router/router.go`)

A shallow embedding of the HTTP handler `UpdateContainers`, of the health
verifier `serverCheck` and of the image freshness detector `imageIsUpToDate`.

* Go `error` values are represented by their message (`err.Error()`).
* The Docker client, the registry and the probed health endpoint form one
  external world.  It is a record of state-passing functions over an arbitrary
  state type `σ`; every call returns its answer together with the next state.
* Go maps (`srv.Environment`, `srv.Networks`) are lists of entries, in the
  order in which the `range` statement visits them in the run at hand.
* A Go run-time panic (index out of range, nil dereference) ends the handler;
  it is an explicit outcome of the model.
* `serverCheck` is an unbounded `for` loop; the model runs it for a given
  number of iterations (`fuel`) and reports when it has not returned by then.
* The handler records the steps it issues in a trace.  Statements about the
  calls the runtime receives are made against `recorder rt`, the world `rt`
  with a log of the calls it was handed and the answers it gave.
* The handler's preamble (compose project loading, client construction,
  registry credential encoding) comes from libraries; the model starts at the
  `for` loop over `project.Services` and takes the encoded credential
  `authStr` as an argument.
-/

namespace Router

/-! ## Data model -/

/-- Go-style result of a call that yields either a value or an error. -/
inductive Res (α : Type)
  | ok (val : α)
  | err (msg : String)
  deriving DecidableEq, Repr

/-- The fields of `types.Container` the handler reads. -/
structure Container where
  ID : String
  Names : List String
  ImageID : String
  deriving DecidableEq, Repr

/-- The network attachment of a service (`types.ServiceNetworkConfig`). -/
structure ServiceNetworkConfig where
  Ipv4Address : String
  deriving DecidableEq, Repr

/-- The fields of `types.ServiceConfig` the handler reads.  `Environment` is
`map[string]*string` and `Networks` is `map[string]*ServiceNetworkConfig`: a
`none` value is a nil pointer.  A volume is given by what its `String()`
method renders. -/
structure ServiceConfig where
  Name : String
  ContainerName : String
  Image : String
  User : String
  Environment : List (String × Option String)
  Volumes : List String
  Networks : List (String × Option ServiceNetworkConfig)
  Restart : String
  deriving DecidableEq, Repr

/-- The fields of `container.Config` the handler fills. -/
structure ContainerConfig where
  Image : String
  User : String
  Env : List String
  deriving DecidableEq, Repr

/-- The fields of `container.HostConfig` the handler fills. -/
structure HostConfig where
  Binds : List String
  RestartPolicy : String
  deriving DecidableEq, Repr

/-- The field of `network.EndpointSettings` the handler fills. -/
structure EndpointSettings where
  IPAddress : String
  deriving DecidableEq, Repr

/-- The `network.NetworkingConfig` built by the handler: the endpoint map. -/
structure NetworkingConfig where
  EndpointsConfig : List (String × EndpointSettings)
  deriving DecidableEq, Repr

/-- The `io.ReadCloser` returned by `ImagePull`: the bytes it delivers and how
reading ends (`none`: `io.EOF`; `some e`: a read error with message `e`,
reported by the read that follows the last delivered byte). -/
structure PullStream where
  data : List Char
  readErr : Option String
  deriving DecidableEq, Repr

/-! ## Image freshness detector (`imageIsUpToDate`) -/

/-- The literal `imgStatus` of `imageIsUpToDate`. -/
def imgStatus : List Char :=
  "\x7b\"status\":\"Status: Image is up to date for ghcr.io/joaquinolivero/gleam:linux-arm\"\x7d".data

/-- Go `strings.HasPrefix s pre`. -/
def hasPrefix : List Char → List Char → Bool
  | _, [] => true
  | [], _ :: _ => false
  | c :: s, p :: pre => c == p && hasPrefix s pre

/-- Go `strings.Contains s substr`. -/
def stringsContains : List Char → List Char → Bool
  | [], substr => substr.isEmpty
  | c :: s, substr => hasPrefix (c :: s) substr || stringsContains s substr

/-- The raw lines of a byte sequence as `bufio.ScanLines` cuts them: every
newline ends a line; a non-empty rest after the last newline is a line too.
`cur` holds the bytes of the line being read. -/
def splitLines : List Char → List Char → List (List Char)
  | cur, [] => if cur = [] then [] else [cur]
  | cur, c :: rest =>
    if c = '\n' then cur :: splitLines [] rest else splitLines (cur ++ [c]) rest

/-- The helper `dropCR` of `bufio`: drops one trailing carriage return. -/
def dropCR (data : List Char) : List Char :=
  if data.getLast? = some '\r' then data.dropLast else data

/-- The constant `bufio.MaxScanTokenSize`. -/
def maxScanTokenSize : Nat := 64 * 1024

/-- The message of `bufio.ErrTooLong`. -/
def errTooLong : String := "bufio.Scanner: token too long"

/-- What a `bufio.Scanner` yields when run to exhaustion: the texts of the
successful `Scan` calls in order, and the value of `Err()` afterwards. -/
structure Scanned where
  lines : List (List Char)
  err : Option String
  deriving DecidableEq, Repr

/-- Tokens of a default `bufio.Scanner` over raw lines.  A line that does not
fit the buffer stops the scan with `ErrTooLong`; otherwise `Err()` is the
reader's error (`nil` for `io.EOF`). -/
def scanTokens (readErr : Option String) : List (List Char) → Scanned
  | [] => ⟨[], readErr⟩
  | line :: more =>
    if maxScanTokenSize ≤ line.length then ⟨[], some errTooLong⟩
    else
      let r := scanTokens readErr more
      ⟨dropCR line :: r.lines, r.err⟩

/-- The scanner `bufio.NewScanner(rc)` run over the stream `rc`. -/
def newScanner (rc : PullStream) : Scanned :=
  scanTokens rc.readErr (splitLines [] rc.data)

/-- The `for scanner.Scan()` loop of `imageIsUpToDate` followed by the
`scanner.Err()` check: `builder` is the content of the `strings.Builder`. -/
def scanLoop (builder : List Char) : List (List Char) → Option String → Bool × Option String
  | [], err => (false, err)
  | text :: more, err =>
    if stringsContains (builder ++ (text ++ ['\n'])) imgStatus then (true, none)
    else scanLoop (builder ++ (text ++ ['\n'])) more err

/-- The function `imageIsUpToDate`: the returned pair `(bool, error)`. -/
def imageIsUpToDate (rc : PullStream) : Bool × Option String :=
  scanLoop [] (newScanner rc).lines (newScanner rc).err

/-- The detector as the specification words it for comparison: every line is
tested on its own, no buffer is kept. -/
def perLineDetect : List (List Char) → Option String → Bool × Option String
  | [], err => (false, err)
  | text :: more, err =>
    if stringsContains text imgStatus then (true, none) else perLineDetect more err

/-! ## The external world -/

/-- The Docker client methods used by the handler and `http.Get`, as
state-passing functions over the state `σ` of the outside world. -/
structure Runtime (σ : Type) where
  ContainerList : σ → Res (List Container) × σ
  ContainerRemove : String → σ → Option String × σ
  ImagePull : String → String → σ → Res PullStream × σ
  ContainerCreate :
    ContainerConfig → HostConfig → NetworkingConfig → String → σ → Res String × σ
  ContainerStart : String → σ → Option String × σ
  ContainerInspect : String → σ → Res Bool × σ
  ImageRemove : String → σ → Option String × σ
  httpGet : String → σ → Res Nat × σ

/-! ## Health verifier (`serverCheck`) -/

/-- A call issued by `serverCheck`, with its answer: an inspection (answer:
`State.Running`), a probe (answer: the status code, or the transport error)
and `time.Sleep` (argument in milliseconds). -/
inductive HCall
  | ContainerInspect (id : String) (res : Res Bool)
  | httpGet (url : String) (res : Res Nat)
  | Sleep (ms : Nat)
  deriving DecidableEq, Repr

/-- The URL probed by `serverCheck` for the address `ip`. -/
def healthURL (ip : String) : String := "http://" ++ ip ++ ":3001/health"

/-- The state of the `healthCheck` loop: the variable `attempts`, the calls
issued so far and the state of the outside world. -/
structure Loop (σ : Type) where
  attempts : Nat
  calls : List HCall
  world : σ

/-- The effect of one pass through the loop body. -/
inductive Iter (σ : Type)
  | again (st : Loop σ)
  | ret (err : Option String) (st : Loop σ)

/-- One iteration of the `healthCheck` loop of `serverCheck`. -/
def serverCheckIter {σ : Type} (rt : Runtime σ) (id ip : String) (st : Loop σ) : Iter σ :=
  if st.attempts = 0 then
    .ret (some "timeout waiting for health check response") st
  else
    match rt.ContainerInspect id st.world with
    | (.err e, w) =>
      .ret (some ("error inspecting container: " ++ e))
        ⟨st.attempts, st.calls ++ [.ContainerInspect id (.err e)], w⟩
    | (.ok running, w) =>
      if running then
        match rt.httpGet (healthURL ip) w with
        | (.err e, w') =>
          .again ⟨st.attempts - 1,
            st.calls ++ [.ContainerInspect id (.ok true),
              .httpGet (healthURL ip) (.err e), .Sleep 1000], w'⟩
        | (.ok code, w') =>
          if code = 200 then
            .ret none ⟨st.attempts,
              st.calls ++ [.ContainerInspect id (.ok true),
                .httpGet (healthURL ip) (.ok code)], w'⟩
          else
            .again ⟨st.attempts,
              st.calls ++ [.ContainerInspect id (.ok true),
                .httpGet (healthURL ip) (.ok code)], w'⟩
      else
        .again ⟨st.attempts, st.calls ++ [.ContainerInspect id (.ok false)], w⟩

/-- The `healthCheck` loop run for at most `fuel` iterations: the return
value of `serverCheck` if it returned within them (`none`: still looping),
and the loop state reached. -/
def serverCheckLoop {σ : Type} (rt : Runtime σ) (id ip : String) :
    Nat → Loop σ → Option (Option String) × Loop σ
  | 0, st => (none, st)
  | fuel + 1, st =>
    match serverCheckIter rt id ip st with
    | .again st' => serverCheckLoop rt id ip fuel st'
    | .ret err st' => (some err, st')

/-- The function `serverCheck`, run for at most `fuel` loop iterations.  The
argument `name` is used for the success log line only. -/
def serverCheck {σ : Type} (rt : Runtime σ) (fuel : Nat) (id ip _name : String) (w : σ) :
    Option (Option String) × Loop σ :=
  serverCheckLoop rt id ip fuel ⟨10, [], w⟩

/-- The kind of a health-verifier call; a sleep keeps its duration. -/
inductive HKind
  | inspect
  | probe
  | sleep (ms : Nat)
  deriving DecidableEq, Repr

/-- The kind of a call, forgetting identifiers and answers. -/
def HCall.kind : HCall → HKind
  | .ContainerInspect _ _ => .inspect
  | .httpGet _ _ => .probe
  | .Sleep ms => .sleep ms


/-! ## The handler `UpdateContainers` -/

/-- The message of the panic raised by indexing an empty slice at 0. -/
def panicIndex : String := "runtime error: index out of range [0] with length 0"

/-- The message of the panic raised by dereferencing a nil pointer. -/
def panicNil : String := "runtime error: invalid memory address or nil pointer dereference"

/-- The loop `for _, ctr := range containers` of the handler: the pair
`(imgID, ctrID)` it leaves behind, or the panic of `ctr.Names[0]`. -/
def locate (containerName : String) : List Container → Res (String × String)
  | [] => .ok ("", "")
  | ctr :: more =>
    match ctr.Names with
    | [] => .err panicIndex
    | first :: _ =>
      if first = "/" ++ containerName then .ok (ctr.ImageID, ctr.ID)
      else locate containerName more

/-- The loop `for key, v := range srv.Environment`: the list `envVars`, or
the panic of `*v` on a nil value. -/
def envVars : List (String × Option String) → Res (List String)
  | [] => .ok []
  | (_, none) :: _ => .err panicNil
  | (key, some v) :: more =>
    match envVars more with
    | .ok vars => .ok ((key ++ "=" ++ v) :: vars)
    | .err p => .err p

/-- The host configuration literal: `srv.Volumes[0].String()` is the only
bind; the index panics on an empty volume list. -/
def hostConfig (srv : ServiceConfig) : Res HostConfig :=
  match srv.Volumes with
  | [] => .err panicIndex
  | first :: _ => .ok ⟨[first], srv.Restart⟩

/-- The map assignment `endConfig[key] = val`. -/
def mapSet (key : String) (val : EndpointSettings) :
    List (String × EndpointSettings) → List (String × EndpointSettings)
  | [] => [(key, val)]
  | (k, v) :: more => if k = key then (k, val) :: more else (k, v) :: mapSet key val more

/-- The loop `for key, v := range srv.Networks`, started with the map
`endConfig` and the variable `ipv4Address`: their final values, or the panic
of `v.Ipv4Address` on a nil value. -/
def endpoints (endConfig : List (String × EndpointSettings)) (ipv4Address : String) :
    List (String × Option ServiceNetworkConfig) →
      Res (List (String × EndpointSettings) × String)
  | [] => .ok (endConfig, ipv4Address)
  | (_, none) :: _ => .err panicNil
  | (key, some v) :: more =>
    endpoints (mapSet key ⟨v.Ipv4Address⟩ endConfig) v.Ipv4Address more

/-- What the Configuring part of the loop body (from `var envVars` to
`netConfig`) hands to the create and health-check calls. -/
structure Configured where
  contConfig : ContainerConfig
  hostConfig : HostConfig
  netConfig : NetworkingConfig
  ipv4Address : String
  deriving DecidableEq, Repr

/-- The Configuring part of the loop body, in source order: environment
list, container config, host config, endpoint map. -/
def configure (srv : ServiceConfig) : Res Configured :=
  match envVars srv.Environment with
  | .err p => .err p
  | .ok vars =>
    match hostConfig srv with
    | .err p => .err p
    | .ok host =>
      match endpoints [] "" srv.Networks with
      | .err p => .err p
      | .ok (endConfig, ip) => .ok ⟨⟨srv.Image, srv.User, vars⟩, host, ⟨endConfig⟩, ip⟩

/-- One step of the per-service sequence as the handler issued it, with the
answer it got.  `serverCheck` carries the calls made inside the health
verifier and its return value (`none`: it has not returned). -/
inductive Step
  | ContainerList (res : Res (List Container))
  | ContainerRemove (containerID : String) (err : Option String)
  | ImagePull (refStr : String) (registryAuth : String) (res : Res PullStream)
  | imageIsUpToDate (current : Bool) (err : Option String)
  | ContainerCreate (config : ContainerConfig) (host : HostConfig)
      (networking : NetworkingConfig) (containerName : String) (res : Res String)
  | ContainerStart (containerID : String) (err : Option String)
  | serverCheck (id ip name : String) (calls : List HCall) (ret : Option (Option String))
  | ImageRemove (imageID : String) (err : Option String)
  deriving DecidableEq, Repr

/-- The error a step returned to the handler, if it returned one. -/
def Step.err : Step → Option String
  | .ContainerList (.err e) => some e
  | .ContainerList (.ok _) => none
  | .ContainerRemove _ e => e
  | .ImagePull _ _ (.err e) => some e
  | .ImagePull _ _ (.ok _) => none
  | .imageIsUpToDate _ e => e
  | .ContainerCreate _ _ _ _ (.err e) => some e
  | .ContainerCreate _ _ _ _ (.ok _) => none
  | .ContainerStart _ e => e
  | .serverCheck _ _ _ _ (some e) => e
  | .serverCheck _ _ _ _ none => none
  | .ImageRemove _ e => e

/-- How the handler ended: it returned without writing an error (`done`), it
wrote `http.Error(w, body, status)` and returned, it panicked, or it is
still inside `serverCheck` when the iteration bound is reached. -/
inductive Outcome
  | done
  | httpError (body : String) (status : Nat)
  | panicked (msg : String)
  | looping
  deriving DecidableEq, Repr

/-- How one pass through the body of the service loop ends: the loop goes on
with the counter `i`, or the handler ends. -/
inductive Ctl
  | next (i : Nat)
  | stop (outcome : Outcome)
  deriving DecidableEq, Repr

/-- The result of one pass through the loop body. -/
structure Pass (σ : Type) where
  steps : List Step
  ctl : Ctl
  world : σ

/-- The constant `http.StatusInternalServerError`. -/
def StatusInternalServerError : Nat := 500

/-- The body of `for _, srv := range project.Services` past the exclusion
test, for the service `srv` with the counter at `i`. -/
def redeploy {σ : Type} (rt : Runtime σ) (authStr : String) (fuel : Nat) (i : Nat)
    (srv : ServiceConfig) (w : σ) : Pass σ :=
  match rt.ContainerList w with
  | (.err e, w1) =>
    ⟨[.ContainerList (.err e)], .stop (.httpError e StatusInternalServerError), w1⟩
  | (.ok containers, w1) =>
  match locate srv.ContainerName containers with
  | .err p => ⟨[.ContainerList (.ok containers)], .stop (.panicked p), w1⟩
  | .ok (imgID, ctrID) =>
  match rt.ContainerRemove ctrID w1 with
  | (some e, w2) =>
    ⟨[.ContainerList (.ok containers), .ContainerRemove ctrID (some e)],
      .stop (.httpError e StatusInternalServerError), w2⟩
  | (none, w2) =>
  match rt.ImagePull srv.Image authStr w2 with
  | (.err e, w3) =>
    ⟨[.ContainerList (.ok containers), .ContainerRemove ctrID none,
        .ImagePull srv.Image authStr (.err e)],
      .stop (.httpError e StatusInternalServerError), w3⟩
  | (.ok out, w3) =>
  match imageIsUpToDate out with
  | (currentImg, some e) =>
    ⟨[.ContainerList (.ok containers), .ContainerRemove ctrID none,
        .ImagePull srv.Image authStr (.ok out), .imageIsUpToDate currentImg (some e)],
      .stop (.httpError e StatusInternalServerError), w3⟩
  | (currentImg, none) =>
  match configure srv with
  | .err p =>
    ⟨[.ContainerList (.ok containers), .ContainerRemove ctrID none,
        .ImagePull srv.Image authStr (.ok out), .imageIsUpToDate currentImg none],
      .stop (.panicked p), w3⟩
  | .ok cfg =>
  match rt.ContainerCreate cfg.contConfig cfg.hostConfig cfg.netConfig srv.ContainerName w3 with
  | (.err e, w4) =>
    ⟨[.ContainerList (.ok containers), .ContainerRemove ctrID none,
        .ImagePull srv.Image authStr (.ok out), .imageIsUpToDate currentImg none,
        .ContainerCreate cfg.contConfig cfg.hostConfig cfg.netConfig srv.ContainerName (.err e)],
      .stop (.httpError e StatusInternalServerError), w4⟩
  | (.ok respID, w4) =>
  match rt.ContainerStart respID w4 with
  | (some e, w5) =>
    ⟨[.ContainerList (.ok containers), .ContainerRemove ctrID none,
        .ImagePull srv.Image authStr (.ok out), .imageIsUpToDate currentImg none,
        .ContainerCreate cfg.contConfig cfg.hostConfig cfg.netConfig srv.ContainerName
          (.ok respID),
        .ContainerStart respID (some e)],
      .stop (.httpError e StatusInternalServerError), w5⟩
  | (none, w5) =>
  match serverCheck rt fuel respID cfg.ipv4Address srv.Name w5 with
  | (none, hc) =>
    ⟨[.ContainerList (.ok containers), .ContainerRemove ctrID none,
        .ImagePull srv.Image authStr (.ok out), .imageIsUpToDate currentImg none,
        .ContainerCreate cfg.contConfig cfg.hostConfig cfg.netConfig srv.ContainerName
          (.ok respID),
        .ContainerStart respID none,
        .serverCheck respID cfg.ipv4Address srv.Name hc.calls none],
      .stop .looping, hc.world⟩
  | (some (some e), hc) =>
    ⟨[.ContainerList (.ok containers), .ContainerRemove ctrID none,
        .ImagePull srv.Image authStr (.ok out), .imageIsUpToDate currentImg none,
        .ContainerCreate cfg.contConfig cfg.hostConfig cfg.netConfig srv.ContainerName
          (.ok respID),
        .ContainerStart respID none,
        .serverCheck respID cfg.ipv4Address srv.Name hc.calls (some (some e))],
      .stop (.httpError e StatusInternalServerError), hc.world⟩
  | (some none, hc) =>
  if i = 0 then
    ⟨[.ContainerList (.ok containers), .ContainerRemove ctrID none,
        .ImagePull srv.Image authStr (.ok out), .imageIsUpToDate currentImg none,
        .ContainerCreate cfg.contConfig cfg.hostConfig cfg.netConfig srv.ContainerName
          (.ok respID),
        .ContainerStart respID none,
        .serverCheck respID cfg.ipv4Address srv.Name hc.calls (some none)],
      .next (i + 1), hc.world⟩
  else if currentImg then
    ⟨[.ContainerList (.ok containers), .ContainerRemove ctrID none,
        .ImagePull srv.Image authStr (.ok out), .imageIsUpToDate currentImg none,
        .ContainerCreate cfg.contConfig cfg.hostConfig cfg.netConfig srv.ContainerName
          (.ok respID),
        .ContainerStart respID none,
        .serverCheck respID cfg.ipv4Address srv.Name hc.calls (some none)],
      .next i, hc.world⟩
  else
  match rt.ImageRemove imgID hc.world with
  | (some e, w7) =>
    ⟨[.ContainerList (.ok containers), .ContainerRemove ctrID none,
        .ImagePull srv.Image authStr (.ok out), .imageIsUpToDate currentImg none,
        .ContainerCreate cfg.contConfig cfg.hostConfig cfg.netConfig srv.ContainerName
          (.ok respID),
        .ContainerStart respID none,
        .serverCheck respID cfg.ipv4Address srv.Name hc.calls (some none),
        .ImageRemove imgID (some e)],
      .stop (.httpError e StatusInternalServerError), w7⟩
  | (none, w7) =>
    ⟨[.ContainerList (.ok containers), .ContainerRemove ctrID none,
        .ImagePull srv.Image authStr (.ok out), .imageIsUpToDate currentImg none,
        .ContainerCreate cfg.contConfig cfg.hostConfig cfg.netConfig srv.ContainerName
          (.ok respID),
        .ContainerStart respID none,
        .serverCheck respID cfg.ipv4Address srv.Name hc.calls (some none),
        .ImageRemove imgID none],
      .next i, w7⟩

/-- A finished or interrupted run of the handler: the steps issued, each
tagged with the position in `project.Services` of the service it was issued
for, the way the handler ended and the final state of the outside world. -/
structure Run (σ : Type) where
  trace : List (Nat × Step)
  outcome : Outcome
  world : σ

/-- The loop `for _, srv := range project.Services`, at position `k` of the
service list with the counter at `i`. -/
def serviceLoop {σ : Type} (rt : Runtime σ) (authStr : String) (fuel : Nat) :
    Nat → Nat → List ServiceConfig → σ → Run σ
  | _, _, [], w => ⟨[], .done, w⟩
  | k, i, srv :: more, w =>
    if srv.ContainerName = "redis-gleam-prod" then
      serviceLoop rt authStr fuel (k + 1) i more w
    else
      match redeploy rt authStr fuel i srv w with
      | ⟨steps, .next i', w'⟩ =>
        ⟨steps.map (Prod.mk k) ++ (serviceLoop rt authStr fuel (k + 1) i' more w').trace,
          (serviceLoop rt authStr fuel (k + 1) i' more w').outcome,
          (serviceLoop rt authStr fuel (k + 1) i' more w').world⟩
      | ⟨steps, .stop outcome, w'⟩ => ⟨steps.map (Prod.mk k), outcome, w'⟩

/-- The handler `UpdateContainers` from the service loop on, over the
services `project.Services`, with `var i int` at zero. -/
def UpdateContainers {σ : Type} (rt : Runtime σ) (authStr : String) (fuel : Nat)
    (services : List ServiceConfig) (w : σ) : Run σ :=
  serviceLoop rt authStr fuel 0 0 services w

/-! ## Auxiliary notions used in the statements -/

/-- The kind of a step of the per-service sequence. -/
inductive Kind
  | list
  | remove
  | pull
  | fresh
  | create
  | start
  | health
  | reap
  deriving DecidableEq, Repr

/-- The kind of a step, forgetting arguments and answer. -/
def Step.kind : Step → Kind
  | .ContainerList _ => .list
  | .ContainerRemove _ _ => .remove
  | .ImagePull _ _ _ => .pull
  | .imageIsUpToDate _ _ => .fresh
  | .ContainerCreate _ _ _ _ _ => .create
  | .ContainerStart _ _ => .start
  | .serverCheck _ _ _ _ _ => .health
  | .ImageRemove _ _ => .reap

/-- No step but the last one returned an error. -/
def errOnlyLast : List Step → Bool
  | [] => true
  | [_] => true
  | st :: more => st.err.isNone && errOnlyLast more

/-- The error returned by the last step, if there is a last step and it
returned one. -/
def lastErr (steps : List Step) : Option String :=
  steps.getLast?.bind Step.err

/-- The container name the handler skips. -/
def excludedName : String := "redis-gleam-prod"

/-- The service at position `k` is the first one the loop processes: every
service before it bears the excluded container name. -/
def firstProcessed (services : List ServiceConfig) (k : Nat) : Prop :=
  ∀ j, j < k → ∀ s, services[j]? = some s → s.ContainerName = excludedName

/-- The pull stream reports that `image` is already up to date: its text holds
the status line Docker prints for an image that needed no download. -/
def reportsUpToDate (image : String) (rd : PullStream) : Bool :=
  stringsContains rd.data ("Status: Image is up to date for " ++ image).data

/-- The error of a failed inspection; `none` for every other call. -/
def HCall.inspectErr : HCall → Option String
  | .ContainerInspect _ (.err e) => some e
  | _ => none

/-- The `KEY=VALUE` string of an environment entry with a value. -/
def envEntry (p : String × Option String) : Option String :=
  p.2.map (fun v => p.1 ++ "=" ++ v)

/-- The endpoint of a network entry with a configuration. -/
def endpointEntry (p : String × Option ServiceNetworkConfig) :
    Option (String × EndpointSettings) :=
  p.2.map (fun v => (p.1, ⟨v.Ipv4Address⟩))

/-- The address of the last network entry that has a configuration, `ip` if
there is none. -/
def lastAddress (ip : String) : List (String × Option ServiceNetworkConfig) → String
  | [] => ip
  | (_, none) :: more => lastAddress ip more
  | (_, some v) :: more => lastAddress v.Ipv4Address more

/-! ## The outside world's own record of a run -/

/-- A call as the outside world receives it, with the answer it gave. -/
inductive Call
  | ContainerList (res : Res (List Container))
  | ContainerRemove (containerID : String) (err : Option String)
  | ImagePull (refStr : String) (registryAuth : String) (res : Res PullStream)
  | ContainerCreate (config : ContainerConfig) (host : HostConfig)
      (networking : NetworkingConfig) (containerName : String) (res : Res String)
  | ContainerStart (containerID : String) (err : Option String)
  | ContainerInspect (id : String) (res : Res Bool)
  | ImageRemove (imageID : String) (err : Option String)
  | httpGet (url : String) (res : Res Nat)
  deriving DecidableEq, Repr

/-- The world `rt` seen through a recorder: every call is handed to `rt`
unchanged, and the call with the arguments received and the answer given is
appended to a log kept next to the state of `rt`. -/
def recorder {σ : Type} (rt : Runtime σ) : Runtime (σ × List Call) where
  ContainerList := fun s =>
    ((rt.ContainerList s.1).1,
      ((rt.ContainerList s.1).2, s.2 ++ [.ContainerList (rt.ContainerList s.1).1]))
  ContainerRemove := fun id s =>
    ((rt.ContainerRemove id s.1).1,
      ((rt.ContainerRemove id s.1).2, s.2 ++ [.ContainerRemove id (rt.ContainerRemove id s.1).1]))
  ImagePull := fun r a s =>
    ((rt.ImagePull r a s.1).1,
      ((rt.ImagePull r a s.1).2, s.2 ++ [.ImagePull r a (rt.ImagePull r a s.1).1]))
  ContainerCreate := fun c h n name s =>
    ((rt.ContainerCreate c h n name s.1).1,
      ((rt.ContainerCreate c h n name s.1).2,
        s.2 ++ [.ContainerCreate c h n name (rt.ContainerCreate c h n name s.1).1]))
  ContainerStart := fun id s =>
    ((rt.ContainerStart id s.1).1,
      ((rt.ContainerStart id s.1).2, s.2 ++ [.ContainerStart id (rt.ContainerStart id s.1).1]))
  ContainerInspect := fun id s =>
    ((rt.ContainerInspect id s.1).1,
      ((rt.ContainerInspect id s.1).2,
        s.2 ++ [.ContainerInspect id (rt.ContainerInspect id s.1).1]))
  ImageRemove := fun id s =>
    ((rt.ImageRemove id s.1).1,
      ((rt.ImageRemove id s.1).2, s.2 ++ [.ImageRemove id (rt.ImageRemove id s.1).1]))
  httpGet := fun url s =>
    ((rt.httpGet url s.1).1,
      ((rt.httpGet url s.1).2, s.2 ++ [.httpGet url (rt.httpGet url s.1).1]))

/-- The call to the outside world behind a health-verifier call; `time.Sleep`
is none. -/
def HCall.call : HCall → Option Call
  | .ContainerInspect id res => some (.ContainerInspect id res)
  | .httpGet url res => some (.httpGet url res)
  | .Sleep _ => none

/-- The calls to the outside world that a step of the trace stands for.
Freshness detection issues none; a health check issues its inspections and
probes. -/
def Step.calls : Step → List Call
  | .ContainerList res => [.ContainerList res]
  | .ContainerRemove id err => [.ContainerRemove id err]
  | .ImagePull r a res => [.ImagePull r a res]
  | .imageIsUpToDate _ _ => []
  | .ContainerCreate c h n name res => [.ContainerCreate c h n name res]
  | .ContainerStart id err => [.ContainerStart id err]
  | .serverCheck _ _ _ calls _ => calls.filterMap HCall.call
  | .ImageRemove id err => [.ImageRemove id err]

/-- The loop state of `serverCheck` over the recorded world, given the loop
state over the plain world and the log `base` held when `serverCheck` was
entered. -/
def Loop.recorded {σ : Type} (base : List Call) (st : Loop σ) : Loop (σ × List Call) :=
  ⟨st.attempts, st.calls, (st.world, base ++ st.calls.filterMap HCall.call)⟩

/-- The handler run against the recorded world, starting with an empty
log. -/
def recordedRun {σ : Type} (rt : Runtime σ) (authStr : String) (fuel : Nat)
    (services : List ServiceConfig) (w : σ) : Run (σ × List Call) :=
  UpdateContainers (recorder rt) authStr fuel services (w, [])

/-- A pull stream with two near-matches of the marker: the status record of
another image coordinate, and the marker cut in two by a line break. -/
def nearMissStream : List Char :=
  ("\x7b\"status\":\"Status: Image is up to date for ghcr.io/joaquinolivero/gleam:linux-amd\"\x7d\r\n" ++
    "\x7b\"status\":\"Status: Image is up to date for \r\n" ++
    "ghcr.io/joaquinolivero/gleam:linux-arm\"\x7d\r\n").data

/-- A pull stream that delivers the marker line and then fails to read. -/
def markerThenError : PullStream :=
  ⟨imgStatus ++ ['\r', '\n'], some "unexpected EOF"⟩

/-- A pull stream that fails to read after the first progress record. -/
def progressThenError : PullStream :=
  ⟨"\x7b\"status\":\"Pulling from joaquinolivero/gleam\"\x7d\r\n".data, some "unexpected EOF"⟩

/-- A pull stream reporting that a newer image was downloaded. -/
def freshStream : PullStream :=
  ⟨("\x7b\"status\":\"Pulling from joaquinolivero/gleam\"\x7d\r\n" ++
    "\x7b\"status\":\"Status: Downloaded newer image for ghcr.io/joaquinolivero/gleam:linux-arm\"\x7d\r\n").data,
    none⟩

/-- A world in which every call succeeds: two live containers `/web` and
`/api`, pulls that deliver `stream`, containers that run at once and a health
endpoint that answers 200.  The state counts the calls. -/
def calmRuntime (stream : PullStream) : Runtime Nat where
  ContainerList := fun n =>
    (.ok [⟨"c1", ["/web"], "img-web"⟩, ⟨"c2", ["/api"], "img-api"⟩], n + 1)
  ContainerRemove := fun _ n => (none, n + 1)
  ImagePull := fun _ _ n => (.ok stream, n + 1)
  ContainerCreate := fun _ _ _ name n => (.ok ("new-" ++ name), n + 1)
  ContainerStart := fun _ n => (none, n + 1)
  ContainerInspect := fun _ n => (.ok true, n + 1)
  ImageRemove := fun _ n => (none, n + 1)
  httpGet := fun _ n => (.ok 200, n + 1)

/-- A service with one environment entry, one volume and one network. -/
def demoService (name image : String) : ServiceConfig :=
  ⟨name, name, image, "1000", [("PORT", some "3001")], ["/srv/data:/data:rw"],
    [("gleam", some ⟨"10.0.0.5"⟩)], "always"⟩

/-- The image coordinate the freshness marker is written for. -/
def gleamImage : String := "ghcr.io/joaquinolivero/gleam:linux-arm"

/-- A pull stream reporting that the image `ghcr.io/acme/api:1` is current. -/
def acmeCurrentStream : PullStream :=
  ⟨"\x7b\"status\":\"Status: Image is up to date for ghcr.io/acme/api:1\"\x7d\r\n".data, none⟩

/-- A pull stream reporting that the image of `gleamImage` is current. -/
def gleamCurrentStream : PullStream :=
  ⟨imgStatus ++ ['\r', '\n'], none⟩

/-- Two services that run the image `ghcr.io/acme/api:1`. -/
def acmeServices : List ServiceConfig :=
  [demoService "web" "ghcr.io/acme/api:1", demoService "api" "ghcr.io/acme/api:1"]

/-- The calm world, except that the container created for `api` fails to
start. -/
def startFailsRuntime : Runtime Nat :=
  { calmRuntime freshStream with
    ContainerStart := fun id n =>
      if id = "new-api" then (some "driver failed programming external connectivity", n + 1)
      else (none, n + 1) }

/-- A service that meets the stated invariant (container name and image
reference non-empty) and declares no volume. -/
def noVolumeService : ServiceConfig :=
  ⟨"web", "web", "repo/app:tag", "", [("PORT", some "3001")], [],
    [("gleam", some ⟨"10.0.0.5"⟩)], "always"⟩

/-- Three services, none excluded, all running the image `gleamImage`. -/
def threeServices : List ServiceConfig :=
  [demoService "web" gleamImage, demoService "api" gleamImage, demoService "worker" gleamImage]

/-- A container list in which two containers bear the name `/api`. -/
def liveContainers : List Container :=
  [⟨"c1", ["/web"], "img-web"⟩, ⟨"c2", ["/api"], "img-api"⟩, ⟨"c3", ["/api"], "img-api-2"⟩]

/-- The calm world with the container list `liveContainers`. -/
def crowdedRuntime : Runtime Nat :=
  { calmRuntime freshStream with ContainerList := fun n => (.ok liveContainers, n + 1) }

/-- A container list whose only container bears the name `/web` in second
place, after a link name. -/
def aliasContainers : List Container :=
  [⟨"c7", ["/proxy/web-link", "/web"], "img-web"⟩]

/-- The calm world with the container list `aliasContainers`. -/
def aliasRuntime : Runtime Nat :=
  { calmRuntime freshStream with ContainerList := fun n => (.ok aliasContainers, n + 1) }

/-- The calm world with a container list that holds a container without a
name. -/
def namelessRuntime : Runtime Nat :=
  { calmRuntime freshStream with
    ContainerList := fun n => (.ok [⟨"c0", [], "img-old"⟩], n + 1) }

/-! ## Facts about the freshness detector -/

theorem hasPrefix_iff (s pre : List Char) : hasPrefix s pre = true ↔ pre <+: s := by
  induction s generalizing pre with
  | nil => cases pre <;> simp [hasPrefix]
  | cons c s ih =>
    cases pre with
    | nil => simp [hasPrefix]
    | cons p pre =>
      simp only [hasPrefix, Bool.and_eq_true, beq_iff_eq, ih, List.cons_prefix_cons]
      constructor
      · rintro ⟨h1, h2⟩
        exact ⟨h1.symm, h2⟩
      · rintro ⟨h1, h2⟩
        exact ⟨h1.symm, h2⟩

theorem stringsContains_iff (s substr : List Char) :
    stringsContains s substr = true ↔ substr <:+: s := by
  induction s with
  | nil => cases substr <;> simp [stringsContains]
  | cons c s ih => simp [stringsContains, List.infix_cons_iff, hasPrefix_iff, ih]

theorem prefix_before_sep {α : Type} {c : α} {m u v : List α} (hc : c ∉ m)
    (h : m <+: u ++ c :: v) : m <+: u := by
  rcases List.prefix_or_prefix_of_prefix h (List.prefix_append u (c :: v)) with h1 | h1
  · exact h1
  · obtain ⟨w, rfl⟩ := h1
    rw [List.prefix_append_right_inj] at h
    cases w with
    | nil => simp
    | cons a w =>
      rw [List.cons_prefix_cons] at h
      exact absurd (by simp [h.1]) hc

theorem infix_sep {α : Type} {c : α} {m : List α} (hc : c ∉ m) (x y : List α) :
    m <:+: x ++ c :: y ↔ m <:+: x ∨ m <:+: y := by
  induction x with
  | nil =>
    simp only [List.nil_append, List.infix_cons_iff]
    constructor
    · rintro (h | h)
      · left
        exact (prefix_before_sep (u := []) hc (by simpa using h)).isInfix
      · exact Or.inr h
    · rintro (h | h)
      · left
        have : m = [] := by simpa using h
        simp [this]
      · exact Or.inr h
  | cons a x ih =>
    simp only [List.cons_append, List.infix_cons_iff, ih]
    constructor
    · rintro (h | h | h)
      · exact Or.inl (Or.inl (prefix_before_sep (u := a :: x) hc h))
      · exact Or.inl (Or.inr h)
      · exact Or.inr h
    · rintro ((h | h) | h)
      · exact Or.inl (h.trans (List.prefix_append (a :: x) (c :: y)))
      · exact Or.inr (Or.inl h)
      · exact Or.inr (Or.inr h)

theorem imgStatus_no_newline : '\n' ∉ imgStatus := by decide

theorem imgStatus_no_return : '\r' ∉ imgStatus := by decide

theorem imgStatus_ne_nil : imgStatus ≠ [] := by decide

theorem imgStatus_not_infix_nil : ¬ imgStatus <:+: [] := by
  simp [imgStatus_ne_nil]

theorem infix_dropCR (l : List Char) : imgStatus <:+: dropCR l ↔ imgStatus <:+: l := by
  unfold dropCR
  split
  · rename_i h
    obtain ⟨ys, rfl⟩ := List.getLast?_eq_some_iff.mp h
    rw [List.dropLast_concat, infix_sep imgStatus_no_return]
    simp [imgStatus_ne_nil]
  · rfl

theorem infix_splitLines (rest cur : List Char) :
    (∃ l ∈ splitLines cur rest, imgStatus <:+: l) ↔ imgStatus <:+: cur ++ rest := by
  induction rest generalizing cur with
  | nil =>
    by_cases h : cur = []
    · simp [splitLines, h, imgStatus_ne_nil]
    · simp [splitLines, h]
  | cons c rest ih =>
    by_cases h : c = '\n'
    · subst h
      simp only [splitLines, if_true, List.mem_cons, exists_eq_or_imp, ih,
        infix_sep imgStatus_no_newline, List.nil_append]
    · simp only [splitLines, h, if_false, ih, List.append_assoc, List.singleton_append]

theorem scanTokens_lines_sub (e : Option String) (ls : List (List Char)) (t : List Char)
    (h : t ∈ (scanTokens e ls).lines) : ∃ l ∈ ls, t = dropCR l := by
  induction ls with
  | nil => simp [scanTokens] at h
  | cons l ls ih =>
    unfold scanTokens at h
    split at h
    · simp at h
    · simp only [List.mem_cons] at h
      rcases h with h | h
      · exact ⟨l, by simp, h⟩
      · obtain ⟨l', hl', ht⟩ := ih h
        exact ⟨l', by simp [hl'], ht⟩

theorem scanTokens_complete (ls : List (List Char))
    (h : (scanTokens none ls).err = none) : (scanTokens none ls).lines = ls.map dropCR := by
  induction ls with
  | nil => simp [scanTokens]
  | cons l ls ih =>
    unfold scanTokens at h ⊢
    split at h
    · simp at h
    · rename_i hl
      simp only [hl, if_false, List.map_cons]
      rw [ih h]

theorem scanTokens_err_some (e : String) (ls : List (List Char)) :
    (scanTokens (some e) ls).err ≠ none := by
  induction ls with
  | nil => simp [scanTokens]
  | cons l ls ih =>
    unfold scanTokens
    split
    · simp
    · exact ih

theorem perLineDetect_eq (lines : List (List Char)) (err : Option String) :
    perLineDetect lines err =
      if ∃ t ∈ lines, imgStatus <:+: t then (true, none) else (false, err) := by
  induction lines with
  | nil => simp [perLineDetect]
  | cons t lines ih =>
    unfold perLineDetect
    by_cases h : stringsContains t imgStatus = true
    · have h' := (stringsContains_iff _ _).mp h
      simp [h, h']
    · have h' : ¬ imgStatus <:+: t := fun c => h ((stringsContains_iff _ _).mpr c)
      simp [h, h', ih]

theorem scanLoop_eq_perLine (lines : List (List Char)) (err : Option String)
    (builder : List Char) (hb : ¬ imgStatus <:+: builder)
    (hn : builder = [] ∨ ∃ b, builder = b ++ ['\n']) :
    scanLoop builder lines err = perLineDetect lines err := by
  induction lines generalizing builder with
  | nil => simp [scanLoop, perLineDetect]
  | cons t lines ih =>
    have key : imgStatus <:+: builder ++ (t ++ ['\n']) ↔ imgStatus <:+: t := by
      rcases hn with rfl | ⟨b, rfl⟩
      · rw [List.nil_append, infix_sep imgStatus_no_newline]
        simp [imgStatus_ne_nil]
      · have hb' : ¬ imgStatus <:+: b := fun c => hb (c.trans (List.infix_append' [] b ['\n']))
        rw [List.append_assoc, List.singleton_append, infix_sep imgStatus_no_newline,
          infix_sep imgStatus_no_newline]
        simp [imgStatus_ne_nil, hb']
    unfold scanLoop perLineDetect
    by_cases h : imgStatus <:+: t
    · simp [(stringsContains_iff _ _).mpr h, (stringsContains_iff _ _).mpr (key.mpr h)]
    · have h1 : ¬ stringsContains t imgStatus = true :=
        fun c => h ((stringsContains_iff _ _).mp c)
      have h2 : ¬ stringsContains (builder ++ (t ++ ['\n'])) imgStatus = true :=
        fun c => h (key.mp ((stringsContains_iff _ _).mp c))
      simp only [h1, h2, if_false]
      exact ih _ (fun c => h (key.mp c)) (Or.inr ⟨builder ++ t, by simp⟩)

theorem imageIsUpToDate_eq (rc : PullStream) :
    imageIsUpToDate rc =
      if ∃ t ∈ (newScanner rc).lines, imgStatus <:+: t then (true, none)
      else (false, (newScanner rc).err) := by
  unfold imageIsUpToDate
  rw [scanLoop_eq_perLine _ _ [] imgStatus_not_infix_nil (Or.inl rfl), perLineDetect_eq]

theorem scanned_line_in_data (rc : PullStream) (t : List Char)
    (ht : t ∈ (newScanner rc).lines) (hm : imgStatus <:+: t) : imgStatus <:+: rc.data := by
  obtain ⟨l, hl, rfl⟩ := scanTokens_lines_sub _ _ _ ht
  have := (infix_splitLines rc.data []).mp ⟨l, hl, (infix_dropCR l).mp hm⟩
  simpa using this

theorem marker_line_iff (data : List Char) (h : (newScanner ⟨data, none⟩).err = none) :
    (∃ t ∈ (newScanner ⟨data, none⟩).lines, imgStatus <:+: t) ↔ imgStatus <:+: data := by
  have hl : (newScanner ⟨data, none⟩).lines = (splitLines [] data).map dropCR :=
    scanTokens_complete _ h
  rw [hl]
  constructor
  · rintro ⟨t, ht, hm⟩
    obtain ⟨l, hl', rfl⟩ := List.mem_map.mp ht
    simpa using (infix_splitLines data []).mp ⟨l, hl', (infix_dropCR l).mp hm⟩
  · intro hm
    obtain ⟨l, hl', hm'⟩ := (infix_splitLines data []).mpr (by simpa using hm)
    exact ⟨dropCR l, List.mem_map.mpr ⟨l, hl', rfl⟩, (infix_dropCR l).mpr hm'⟩

theorem marker_not_stale (rd : PullStream) (hm : imgStatus <:+: rd.data) :
    imageIsUpToDate rd ≠ (false, none) := by
  rw [imageIsUpToDate_eq]
  split
  · simp
  · rename_i hno
    intro hc
    have herr : (newScanner rd).err = none := by simpa using hc
    rcases rd with ⟨data, readErr⟩
    cases readErr with
    | none => exact hno ((marker_line_iff data herr).mpr hm)
    | some e => exact scanTokens_err_some e _ herr

/-! ## Claims about the freshness detector -/

/-- C4: for a pull stream read to its end with `scanner.Err()` nil,
`imageIsUpToDate` returns `(true, nil)` when the text of the stream contains
the marker `imgStatus` and `(false, nil)` when it does not; and the loop over
the growing buffer returns what a line-by-line test returns, for every
sequence of lines and every final scanner error. -/
theorem imageIsUpToDate_marker (data : List Char)
    (h : (newScanner ⟨data, none⟩).err = none) :
    (imgStatus <:+: data → imageIsUpToDate ⟨data, none⟩ = (true, none)) ∧
    (¬ imgStatus <:+: data → imageIsUpToDate ⟨data, none⟩ = (false, none)) ∧
    (∀ (lines : List (List Char)) (err : Option String),
      scanLoop [] lines err = perLineDetect lines err) := by
  have hiff := marker_line_iff data h
  refine ⟨fun hm => ?_, fun hm => ?_, fun lines err => ?_⟩
  · rw [imageIsUpToDate_eq, if_pos (hiff.mpr hm)]
  · rw [imageIsUpToDate_eq, if_neg (fun c => hm (hiff.mp c)), h]
  · exact scanLoop_eq_perLine lines err [] imgStatus_not_infix_nil (Or.inl rfl)

/-- C4 on concrete streams: a stream holding two near-matches of the marker
(another image coordinate, the marker cut by a line break) yields
`(false, nil)`, and a stream holding the marker line yields `(true, nil)`. -/
theorem imageIsUpToDate_marker_witness :
    ((newScanner ⟨nearMissStream, none⟩).err = none ∧
      ¬ imgStatus <:+: nearMissStream ∧
      imageIsUpToDate ⟨nearMissStream, none⟩ = (false, none)) ∧
    ((newScanner ⟨gleamCurrentStream.data, none⟩).err = none ∧
      imgStatus <:+: gleamCurrentStream.data ∧
      imageIsUpToDate ⟨gleamCurrentStream.data, none⟩ = (true, none)) :=
  ⟨⟨by decide, by rw [← stringsContains_iff]; decide,
      (imageIsUpToDate_marker nearMissStream (by decide)).2.1
        (by rw [← stringsContains_iff]; decide)⟩,
    ⟨by decide, List.infix_append' [] imgStatus ['\r', '\n'],
      (imageIsUpToDate_marker gleamCurrentStream.data (by decide)).1
        (List.infix_append' [] imgStatus ['\r', '\n'])⟩⟩

/-- C5 as stated fails: the stream `markerThenError` fails to read after the
marker line, and `imageIsUpToDate` returns `(true, nil)`. -/
theorem imageIsUpToDate_readErr_counterexample :
    markerThenError.readErr = some "unexpected EOF" ∧
      imageIsUpToDate markerThenError = (true, none) := by
  decide

/-- C5, amended: for a pull stream whose read fails, `imageIsUpToDate`
returns `(true, nil)` when one of the lines the scanner delivered holds the
marker, and otherwise returns `false` with a non-nil error; the latter is the
case whenever the delivered bytes do not contain the marker. -/
theorem imageIsUpToDate_readErr (rc : PullStream) (e : String) (h : rc.readErr = some e) :
    ((∃ t ∈ (newScanner rc).lines, imgStatus <:+: t) →
      imageIsUpToDate rc = (true, none)) ∧
    ((¬ ∃ t ∈ (newScanner rc).lines, imgStatus <:+: t) →
      ∃ e', imageIsUpToDate rc = (false, some e')) ∧
    (¬ imgStatus <:+: rc.data → ∃ e', imageIsUpToDate rc = (false, some e')) := by
  have herr : ∃ e', (newScanner rc).err = some e' := by
    have := scanTokens_err_some e (splitLines [] rc.data)
    unfold newScanner
    rw [h]
    exact Option.ne_none_iff_exists'.mp this
  obtain ⟨e', he'⟩ := herr
  refine ⟨fun hm => ?_, fun hm => ⟨e', ?_⟩, fun hm => ⟨e', ?_⟩⟩
  · rw [imageIsUpToDate_eq, if_pos hm]
  · rw [imageIsUpToDate_eq, if_neg hm, he']
  · rw [imageIsUpToDate_eq, if_neg, he']
    rintro ⟨t, ht, hmt⟩
    exact hm (scanned_line_in_data rc t ht hmt)

/-- C5 amended, on a stream that fails to read before any marker line: the
read error is surfaced. -/
theorem imageIsUpToDate_readErr_witness :
    progressThenError.readErr = some "unexpected EOF" ∧
      ∃ e', imageIsUpToDate progressThenError = (false, some e') :=
  ⟨rfl, (imageIsUpToDate_readErr progressThenError "unexpected EOF" rfl).2.2
    (by rw [← stringsContains_iff]; decide)⟩

/-! ## Facts about the health verifier -/

theorem concat_split {α : Type} (l pre post : List α) (x c : α)
    (h : l ++ [x] = pre ++ c :: post) : (post = [] ∧ c = x) ∨ c ∈ l := by
  rcases List.eq_nil_or_concat post with rfl | ⟨post', z, rfl⟩
  · left
    have := List.append_inj' h rfl
    simp only [List.cons.injEq, and_true] at this
    exact ⟨rfl, this.2.symm⟩
  · right
    have h' : l ++ [x] = (pre ++ c :: post') ++ [z] := by simpa using h
    have := (List.append_inj' h' rfl).1
    rw [this]
    simp

theorem clean_append (a b : List HCall) (ha : ∀ c ∈ a, c.inspectErr = none)
    (hb : ∀ c ∈ b, c.inspectErr = none) : ∀ c ∈ a ++ b, c.inspectErr = none := by
  intro c hc
  rcases List.mem_append.mp hc with h | h
  · exact ha c h
  · exact hb c h

theorem clean_no_inspectErr (calls pre post : List HCall) (c : HCall) (e : String)
    (hclean : ∀ c ∈ calls, c.inspectErr = none) (hs : calls = pre ++ c :: post)
    (hc : c.inspectErr = some e) : False := by
  have := hclean c (by rw [hs]; simp)
  rw [this] at hc
  cases hc

theorem serverCheckIter_clean {σ : Type} (rt : Runtime σ) (id ip : String) (st : Loop σ)
    (hclean : ∀ c ∈ st.calls, c.inspectErr = none) :
    (∀ st', serverCheckIter rt id ip st = .again st' →
      ∀ c ∈ st'.calls, c.inspectErr = none) ∧
    (∀ err st', serverCheckIter rt id ip st = .ret err st' →
      ∀ (pre post : List HCall) (c : HCall) (e : String),
        st'.calls = pre ++ c :: post → c.inspectErr = some e →
        post = [] ∧ err = some ("error inspecting container: " ++ e)) := by
  unfold serverCheckIter
  by_cases ha : st.attempts = 0
  · simp only [ha, if_true]
    constructor
    · intro st' h
      cases h
    · intro err st' h pre post c e hs hc
      cases h
      exact (clean_no_inspectErr _ _ _ _ _ hclean hs hc).elim
  · rw [if_neg ha]
    rcases rt.ContainerInspect id st.world with ⟨r, w1⟩
    cases r with
    | err e0 =>
      simp only
      constructor
      · intro st' h
        cases h
      · intro err st' h pre post c e hs hc
        cases h
        simp only at hs
        rcases concat_split _ _ _ _ _ hs with ⟨h1, h2⟩ | h1
        · subst h2
          simp only [HCall.inspectErr, Option.some.injEq] at hc
          subst hc
          exact ⟨h1, rfl⟩
        · have := hclean c h1
          rw [this] at hc
          cases hc
    | ok running =>
      cases running with
      | false =>
        simp only [Bool.false_eq_true, if_false]
        constructor
        · intro st' h
          cases h
          exact clean_append _ _ hclean (by simp [HCall.inspectErr])
        · intro err st' h
          cases h
      | true =>
        simp only [if_true]
        rcases rt.httpGet (healthURL ip) w1 with ⟨g, w2⟩
        cases g with
        | err e1 =>
          simp only
          constructor
          · intro st' h
            cases h
            exact clean_append _ _ hclean (by simp [HCall.inspectErr])
          · intro err st' h
            cases h
        | ok code =>
          simp only
          by_cases h200 : code = 200
          · rw [if_pos h200]
            constructor
            · intro st' h
              cases h
            · intro err st' h pre post c e hs hc
              cases h
              exact (clean_no_inspectErr _ _ _ _ _
                (clean_append _ _ hclean (by simp [HCall.inspectErr])) hs hc).elim
          · rw [if_neg h200]
            constructor
            · intro st' h
              cases h
              exact clean_append _ _ hclean (by simp [HCall.inspectErr])
            · intro err st' h
              cases h

theorem serverCheckLoop_inspect_last {σ : Type} (rt : Runtime σ) (id ip : String)
    (n : Nat) (st : Loop σ) (hclean : ∀ c ∈ st.calls, c.inspectErr = none)
    (pre post : List HCall) (c : HCall) (e : String)
    (hs : (serverCheckLoop rt id ip n st).2.calls = pre ++ c :: post)
    (hc : c.inspectErr = some e) :
    post = [] ∧
      (serverCheckLoop rt id ip n st).1 = some (some ("error inspecting container: " ++ e)) := by
  induction n generalizing st with
  | zero =>
    simp only [serverCheckLoop] at hs
    exact (clean_no_inspectErr _ _ _ _ _ hclean hs hc).elim
  | succ n ih =>
    have hi := serverCheckIter_clean rt id ip st hclean
    unfold serverCheckLoop at hs ⊢
    cases hit : serverCheckIter rt id ip st with
    | again st' =>
      rw [hit] at hs
      simp only at hs ⊢
      exact ih st' (hi.1 st' hit) hs
    | ret err st' =>
      rw [hit] at hs
      simp only at hs ⊢
      obtain ⟨h1, h2⟩ := hi.2 err st' hit pre post c e hs hc
      exact ⟨h1, by rw [h2]⟩

theorem serverCheck_inspect_last {σ : Type} (rt : Runtime σ) (fuel : Nat)
    (id ip name : String) (w : σ) (pre post : List HCall) (c : HCall) (e : String)
    (hs : (serverCheck rt fuel id ip name w).2.calls = pre ++ c :: post)
    (hc : c.inspectErr = some e) :
    post = [] ∧
      (serverCheck rt fuel id ip name w).1 = some (some ("error inspecting container: " ++ e)) :=
  serverCheckLoop_inspect_last rt id ip fuel ⟨10, [], w⟩ (by simp) pre post c e hs hc

theorem redeploy_next_no_err {σ : Type} (rt : Runtime σ) (authStr : String) (fuel i : Nat)
    (srv : ServiceConfig) (w : σ) (i' : Nat)
    (h : (redeploy rt authStr fuel i srv w).ctl = .next i') :
    ∀ st ∈ (redeploy rt authStr fuel i srv w).steps, st.err = none := by
  revert h
  unfold redeploy
  repeat' split
  all_goals simp_all [Step.err]

theorem redeploy_next_counter {σ : Type} (rt : Runtime σ) (authStr : String) (fuel i : Nat)
    (srv : ServiceConfig) (w : σ) (i' : Nat)
    (h : (redeploy rt authStr fuel i srv w).ctl = .next i') : i' ≠ 0 := by
  revert h
  unfold redeploy
  repeat' split
  all_goals simp_all
  all_goals omega

theorem redeploy_next_health {σ : Type} (rt : Runtime σ) (authStr : String) (fuel i : Nat)
    (srv : ServiceConfig) (w : σ) (i' : Nat)
    (h : (redeploy rt authStr fuel i srv w).ctl = .next i') :
    ∃ id ip name calls,
      Step.serverCheck id ip name calls (some none) ∈ (redeploy rt authStr fuel i srv w).steps := by
  revert h
  unfold redeploy
  repeat' split
  all_goals simp_all

theorem redeploy_errOnlyLast {σ : Type} (rt : Runtime σ) (authStr : String) (fuel i : Nat)
    (srv : ServiceConfig) (w : σ) :
    errOnlyLast (redeploy rt authStr fuel i srv w).steps = true := by
  unfold redeploy
  repeat' split
  all_goals simp_all [errOnlyLast, Step.err]

theorem redeploy_lastErr {σ : Type} (rt : Runtime σ) (authStr : String) (fuel i : Nat)
    (srv : ServiceConfig) (w : σ) (msg : String)
    (h : lastErr (redeploy rt authStr fuel i srv w).steps = some msg) :
    (redeploy rt authStr fuel i srv w).ctl = .stop (.httpError msg StatusInternalServerError) := by
  revert h
  unfold redeploy
  repeat' split
  all_goals simp_all [lastErr, Step.err]

theorem redeploy_httpError {σ : Type} (rt : Runtime σ) (authStr : String) (fuel i : Nat)
    (srv : ServiceConfig) (w : σ) (body : String) (status : Nat)
    (h : (redeploy rt authStr fuel i srv w).ctl = .stop (.httpError body status)) :
    status = StatusInternalServerError ∧
      lastErr (redeploy rt authStr fuel i srv w).steps = some body := by
  revert h
  unfold redeploy
  repeat' split
  all_goals simp_all [lastErr, Step.err]

theorem redeploy_reap_stale {σ : Type} (rt : Runtime σ) (authStr : String) (fuel i : Nat)
    (srv : ServiceConfig) (w : σ) (img refStr auth : String) (e : Option String)
    (rd : PullStream)
    (hp : Step.ImagePull refStr auth (.ok rd) ∈ (redeploy rt authStr fuel i srv w).steps)
    (h : Step.ImageRemove img e ∈ (redeploy rt authStr fuel i srv w).steps) :
    imageIsUpToDate rd = (false, none) := by
  revert h hp
  unfold redeploy
  repeat' split
  all_goals simp_all

theorem redeploy_locating {σ : Type} (rt : Runtime σ) (authStr : String) (fuel i : Nat)
    (srv : ServiceConfig) (w : σ) (containers : List Container) (imgID ctrID : String)
    (hl : (rt.ContainerList w).1 = .ok containers)
    (hc : locate srv.ContainerName containers = .ok (imgID, ctrID)) :
    (redeploy rt authStr fuel i srv w).steps.take 2 =
      [.ContainerList (.ok containers),
        .ContainerRemove ctrID (rt.ContainerRemove ctrID (rt.ContainerList w).2).1] := by
  revert hl hc
  unfold redeploy
  repeat' split
  all_goals intro hl hc
  all_goals simp_all

theorem locate_find (containerName : String) (containers : List Container)
    (h : ∀ c ∈ containers, c.Names ≠ []) :
    locate containerName containers =
      .ok (match containers.find? (fun c => c.Names.head? = some ("/" ++ containerName)) with
        | some c => (c.ImageID, c.ID)
        | none => ("", "")) := by
  induction containers with
  | nil => simp [locate]
  | cons c more ih =>
    have hc := h c (by simp)
    have ih' := ih (fun c' hc' => h c' (by simp [hc']))
    unfold locate
    cases hn : c.Names with
    | nil => exact absurd hn hc
    | cons first rest =>
      simp only
      by_cases hf : first = "/" ++ containerName
      · simp [hf, List.find?, hn]
      · simp [hf, List.find?, hn, ih']

theorem redeploy_health_step {σ : Type} (rt : Runtime σ) (authStr : String) (fuel i : Nat)
    (srv : ServiceConfig) (w : σ) (id ip name : String) (calls : List HCall)
    (ret : Option (Option String))
    (h : Step.serverCheck id ip name calls ret ∈ (redeploy rt authStr fuel i srv w).steps) :
    ∃ w5, calls = (serverCheck rt fuel id ip name w5).2.calls ∧
      ret = (serverCheck rt fuel id ip name w5).1 := by
  revert h
  unfold redeploy
  repeat' split
  all_goals intro h
  all_goals simp_all
  all_goals
    have hh := ‹serverCheck rt fuel _ _ _ _ = _›
    exact ⟨_, by rw [hh], by rw [hh]⟩

/-! ## The recorded world sees what the trace says -/

theorem recorder_serverCheckIter {σ : Type} (rt : Runtime σ) (id ip : String)
    (base : List Call) (st : Loop σ) :
    serverCheckIter (recorder rt) id ip (st.recorded base) =
      match serverCheckIter rt id ip st with
      | .again st' => .again (st'.recorded base)
      | .ret err st' => .ret err (st'.recorded base) := by
  unfold serverCheckIter
  by_cases ha : st.attempts = 0
  · simp [ha, Loop.recorded]
  · simp only [Loop.recorded, ha, if_false, recorder]
    rcases rt.ContainerInspect id st.world with ⟨r, w1⟩
    cases r with
    | err e => simp [HCall.call]
    | ok running =>
      cases running with
      | false => simp [HCall.call]
      | true =>
        simp only [if_true]
        rcases rt.httpGet (healthURL ip) w1 with ⟨g, w2⟩
        cases g with
        | err e => simp [HCall.call]
        | ok code =>
          by_cases hc : code = 200
          · simp [hc, HCall.call]
          · simp [hc, HCall.call]

theorem recorder_serverCheckLoop {σ : Type} (rt : Runtime σ) (id ip : String)
    (base : List Call) (n : Nat) (st : Loop σ) :
    serverCheckLoop (recorder rt) id ip n (st.recorded base) =
      ((serverCheckLoop rt id ip n st).1, (serverCheckLoop rt id ip n st).2.recorded base) := by
  induction n generalizing st with
  | zero => simp [serverCheckLoop]
  | succ n ih =>
    unfold serverCheckLoop
    rw [recorder_serverCheckIter]
    cases serverCheckIter rt id ip st with
    | again st' => simpa using ih st'
    | ret err st' => simp

theorem recorder_serverCheck {σ : Type} (rt : Runtime σ) (fuel : Nat) (id ip name : String)
    (w : σ) (log : List Call) :
    serverCheck (recorder rt) fuel id ip name (w, log) =
      ((serverCheck rt fuel id ip name w).1,
        (serverCheck rt fuel id ip name w).2.recorded log) := by
  unfold serverCheck
  have := recorder_serverCheckLoop rt id ip log fuel ⟨10, [], w⟩
  simpa [Loop.recorded] using this

theorem recorder_apply {σ : Type} (rt : Runtime σ) :
    (∀ s, (recorder rt).ContainerList s =
      ((rt.ContainerList s.1).1,
        ((rt.ContainerList s.1).2, s.2 ++ [.ContainerList (rt.ContainerList s.1).1]))) ∧
    (∀ id s, (recorder rt).ContainerRemove id s =
      ((rt.ContainerRemove id s.1).1,
        ((rt.ContainerRemove id s.1).2,
          s.2 ++ [.ContainerRemove id (rt.ContainerRemove id s.1).1]))) ∧
    (∀ r a s, (recorder rt).ImagePull r a s =
      ((rt.ImagePull r a s.1).1,
        ((rt.ImagePull r a s.1).2, s.2 ++ [.ImagePull r a (rt.ImagePull r a s.1).1]))) ∧
    (∀ c h n name s, (recorder rt).ContainerCreate c h n name s =
      ((rt.ContainerCreate c h n name s.1).1,
        ((rt.ContainerCreate c h n name s.1).2,
          s.2 ++ [.ContainerCreate c h n name (rt.ContainerCreate c h n name s.1).1]))) ∧
    (∀ id s, (recorder rt).ContainerStart id s =
      ((rt.ContainerStart id s.1).1,
        ((rt.ContainerStart id s.1).2,
          s.2 ++ [.ContainerStart id (rt.ContainerStart id s.1).1]))) ∧
    (∀ id s, (recorder rt).ImageRemove id s =
      ((rt.ImageRemove id s.1).1,
        ((rt.ImageRemove id s.1).2, s.2 ++ [.ImageRemove id (rt.ImageRemove id s.1).1]))) :=
  ⟨fun _ => rfl, fun _ _ => rfl, fun _ _ _ => rfl, fun _ _ _ _ _ => rfl, fun _ _ => rfl,
    fun _ _ => rfl⟩

theorem recorder_redeploy {σ : Type} (rt : Runtime σ) (authStr : String) (fuel i : Nat)
    (srv : ServiceConfig) (w : σ) (log : List Call) :
    (redeploy (recorder rt) authStr fuel i srv (w, log)).steps =
        (redeploy rt authStr fuel i srv w).steps ∧
      (redeploy (recorder rt) authStr fuel i srv (w, log)).ctl =
        (redeploy rt authStr fuel i srv w).ctl ∧
      (redeploy (recorder rt) authStr fuel i srv (w, log)).world =
        ((redeploy rt authStr fuel i srv w).world,
          log ++ (redeploy rt authStr fuel i srv w).steps.flatMap Step.calls) := by
  unfold redeploy
  simp only [recorder_apply, recorder_serverCheck]
  rcases rt.ContainerList w with ⟨r1, w1⟩
  cases r1 with
  | err e => simp [Step.calls, recorder_apply]
  | ok containers =>
  simp only [recorder_apply, recorder_serverCheck]
  cases locate srv.ContainerName containers with
  | err p => simp [Step.calls, recorder_apply]
  | ok pair =>
  rcases pair with ⟨imgID, ctrID⟩
  simp only [recorder_apply, recorder_serverCheck]
  rcases rt.ContainerRemove ctrID w1 with ⟨r2, w2⟩
  cases r2 with
  | some e => simp [Step.calls, recorder_apply]
  | none =>
  simp only [recorder_apply, recorder_serverCheck]
  rcases rt.ImagePull srv.Image authStr w2 with ⟨r3, w3⟩
  cases r3 with
  | err e => simp [Step.calls, recorder_apply]
  | ok out =>
  simp only [recorder_apply, recorder_serverCheck]
  rcases imageIsUpToDate out with ⟨cur, ferr⟩
  cases ferr with
  | some e => simp [Step.calls, recorder_apply]
  | none =>
  simp only [recorder_apply, recorder_serverCheck]
  cases configure srv with
  | err p => simp [Step.calls, recorder_apply]
  | ok cfg =>
  simp only [recorder_apply, recorder_serverCheck]
  rcases rt.ContainerCreate cfg.contConfig cfg.hostConfig cfg.netConfig srv.ContainerName w3
    with ⟨r4, w4⟩
  cases r4 with
  | err e => simp [Step.calls, recorder_apply]
  | ok respID =>
  simp only [recorder_apply, recorder_serverCheck]
  rcases rt.ContainerStart respID w4 with ⟨r5, w5⟩
  cases r5 with
  | some e => simp [Step.calls, recorder_apply]
  | none =>
  simp only [recorder_apply, recorder_serverCheck]
  rcases serverCheck rt fuel respID cfg.ipv4Address srv.Name w5 with ⟨r6, hc⟩
  cases r6 with
  | none => simp [Step.calls, Loop.recorded, recorder_apply]
  | some ret =>
  cases ret with
  | some e => simp [Step.calls, Loop.recorded, recorder_apply]
  | none =>
  simp only [Loop.recorded, recorder_apply]
  by_cases hi : i = 0
  · simp [hi, Step.calls, recorder_apply]
  · simp only [hi, if_false]
    by_cases hcur : cur = true
    · simp [hcur, Step.calls, recorder_apply]
    · simp only [hcur, if_false, recorder_apply]
      rcases rt.ImageRemove imgID hc.world with ⟨r7, w7⟩
      cases r7 with
      | some e => simp [Step.calls, recorder_apply]
      | none => simp [Step.calls, recorder_apply]

theorem locate_named (containerName : String) (containers : List Container)
    (h : ∀ c ∈ containers, c.Names ≠ []) (p : String) :
    locate containerName containers ≠ .err p := by
  rw [locate_find containerName containers h]
  simp

theorem envVars_ok (env : List (String × Option String)) (h : ∀ p ∈ env, p.2 ≠ none) :
    envVars env = .ok (env.filterMap envEntry) := by
  induction env with
  | nil => simp [envVars]
  | cons p env ih =>
    have ih' := ih (fun q hq => h q (by simp [hq]))
    rcases p with ⟨key, v⟩
    cases v with
    | none => exact absurd rfl (h (key, none) (by simp))
    | some v => simp [envVars, ih', envEntry]

theorem mapSet_fresh (key : String) (val : EndpointSettings)
    (m : List (String × EndpointSettings)) (h : key ∉ m.map Prod.fst) :
    mapSet key val m = m ++ [(key, val)] := by
  induction m with
  | nil => simp [mapSet]
  | cons p m ih =>
    rcases p with ⟨k, v⟩
    simp only [List.map_cons, List.mem_cons, not_or] at h
    have hk : ¬ k = key := fun c => h.1 c.symm
    simp [mapSet, hk, ih h.2]

theorem endpoints_ok (nets : List (String × Option ServiceNetworkConfig))
    (acc : List (String × EndpointSettings)) (ip : String)
    (h : ∀ p ∈ nets, p.2 ≠ none) (hnd : (acc.map Prod.fst ++ nets.map Prod.fst).Nodup) :
    endpoints acc ip nets = .ok (acc ++ nets.filterMap endpointEntry, lastAddress ip nets) := by
  induction nets generalizing acc ip with
  | nil => simp [endpoints, lastAddress]
  | cons p nets ih =>
    rcases p with ⟨key, v⟩
    cases v with
    | none => exact absurd rfl (h (key, none) (by simp))
    | some v =>
      have hfresh : key ∉ acc.map Prod.fst := by
        intro hc
        rw [List.nodup_append] at hnd
        exact hnd.2.2 hc (by simp)
      simp only [endpoints, lastAddress]
      rw [mapSet_fresh _ _ _ hfresh, ih _ _ (fun q hq => h q (by simp [hq]))]
      · simp [endpointEntry]
      · simpa [List.map_append, List.append_assoc] using hnd

/-- Configuring completes for a service that declares at least one volume and
whose environment and network maps hold no nil value: the environment list
has one `KEY=VALUE` string per entry, the binds are the first volume, the
endpoint map has the declared networks with their addresses. -/
theorem configure_total (srv : ServiceConfig) (first : String) (rest : List String)
    (hv : srv.Volumes = first :: rest)
    (henv : ∀ p ∈ srv.Environment, p.2 ≠ none)
    (hnet : ∀ p ∈ srv.Networks, p.2 ≠ none)
    (hkeys : (srv.Networks.map Prod.fst).Nodup) :
    configure srv = .ok
      ⟨⟨srv.Image, srv.User, srv.Environment.filterMap envEntry⟩,
        ⟨[first], srv.Restart⟩,
        ⟨srv.Networks.filterMap endpointEntry⟩,
        lastAddress "" srv.Networks⟩ := by
  unfold configure
  rw [envVars_ok _ henv]
  simp only [hostConfig, hv]
  rw [endpoints_ok _ _ _ hnet (by simpa using hkeys)]
  simp

theorem serviceLoop_nil {σ : Type} (rt : Runtime σ) (authStr : String) (fuel k i : Nat) (w : σ) :
    serviceLoop rt authStr fuel k i [] w = ⟨[], .done, w⟩ := by
  simp [serviceLoop]

theorem serviceLoop_excluded {σ : Type} (rt : Runtime σ) (authStr : String) (fuel k i : Nat)
    (srv : ServiceConfig) (more : List ServiceConfig) (w : σ)
    (hx : srv.ContainerName = excludedName) :
    serviceLoop rt authStr fuel k i (srv :: more) w =
      serviceLoop rt authStr fuel (k + 1) i more w := by
  have hx' : srv.ContainerName = "redis-gleam-prod" := hx
  rw [serviceLoop, if_pos hx']

theorem serviceLoop_next {σ : Type} (rt : Runtime σ) (authStr : String) (fuel k i : Nat)
    (srv : ServiceConfig) (more : List ServiceConfig) (w : σ) (i' : Nat)
    (hx : srv.ContainerName ≠ excludedName)
    (hn : (redeploy rt authStr fuel i srv w).ctl = .next i') :
    (serviceLoop rt authStr fuel k i (srv :: more) w).trace =
        (redeploy rt authStr fuel i srv w).steps.map (Prod.mk k) ++
          (serviceLoop rt authStr fuel (k + 1) i' more
            (redeploy rt authStr fuel i srv w).world).trace ∧
      (serviceLoop rt authStr fuel k i (srv :: more) w).outcome =
        (serviceLoop rt authStr fuel (k + 1) i' more
          (redeploy rt authStr fuel i srv w).world).outcome := by
  have hx' : ¬ srv.ContainerName = "redis-gleam-prod" := hx
  rw [serviceLoop, if_neg hx']
  rcases hr : redeploy rt authStr fuel i srv w with ⟨steps, ctl, w'⟩
  rw [hr] at hn
  simp only at hn
  subst hn
  simp

theorem serviceLoop_stop {σ : Type} (rt : Runtime σ) (authStr : String) (fuel k i : Nat)
    (srv : ServiceConfig) (more : List ServiceConfig) (w : σ) (o : Outcome)
    (hx : srv.ContainerName ≠ excludedName)
    (hn : (redeploy rt authStr fuel i srv w).ctl = .stop o) :
    (serviceLoop rt authStr fuel k i (srv :: more) w).trace =
        (redeploy rt authStr fuel i srv w).steps.map (Prod.mk k) ∧
      (serviceLoop rt authStr fuel k i (srv :: more) w).outcome = o := by
  have hx' : ¬ srv.ContainerName = "redis-gleam-prod" := hx
  rw [serviceLoop, if_neg hx']
  rcases hr : redeploy rt authStr fuel i srv w with ⟨steps, ctl, w'⟩
  rw [hr] at hn
  simp only at hn
  subst hn
  simp

theorem serviceLoop_label_ge {σ : Type} (rt : Runtime σ) (authStr : String) (fuel : Nat)
    (services : List ServiceConfig) (k i : Nat) (w : σ) (e : Nat × Step)
    (h : e ∈ (serviceLoop rt authStr fuel k i services w).trace) : k ≤ e.1 := by
  induction services generalizing k i w with
  | nil => simp [serviceLoop_nil] at h
  | cons srv more ih =>
    by_cases hx : srv.ContainerName = excludedName
    · rw [serviceLoop_excluded _ _ _ _ _ _ _ _ hx] at h
      have := ih _ _ _ h
      omega
    · cases hc : (redeploy rt authStr fuel i srv w).ctl with
      | next i' =>
        rw [(serviceLoop_next _ _ _ k _ _ more _ _ hx hc).1, List.mem_append] at h
        rcases h with h | h
        · obtain ⟨st, _, rfl⟩ := List.mem_map.mp h
          simp
        · have := ih _ _ _ h
          omega
      | stop o =>
        rw [(serviceLoop_stop _ _ _ k _ _ more _ _ hx hc).1] at h
        obtain ⟨st, _, rfl⟩ := List.mem_map.mp h
        simp

/-- The steps tagged `k'` in a run of the loop are the steps of one pass
through the loop body, for the service at that position, which does not
bear the excluded name; the counter of that pass is zero exactly when the
loop started with the counter at zero and skipped every earlier service. -/
theorem serviceLoop_segment {σ : Type} (rt : Runtime σ) (authStr : String) (fuel : Nat)
    (services : List ServiceConfig) (k i : Nat) (w : σ) (k' : Nat) (st : Step)
    (h : (k', st) ∈ (serviceLoop rt authStr fuel k i services w).trace) :
    ∃ srv i0 w0, services[k' - k]? = some srv ∧ srv.ContainerName ≠ excludedName ∧
      (∀ st', (k', st') ∈ (serviceLoop rt authStr fuel k i services w).trace ↔
        st' ∈ (redeploy rt authStr fuel i0 srv w0).steps) ∧
      (i0 = 0 ↔ i = 0 ∧ firstProcessed services (k' - k)) := by
  induction services generalizing k i w with
  | nil => simp [serviceLoop_nil] at h
  | cons srv more ih =>
    have hge := serviceLoop_label_ge _ _ _ _ _ _ _ _ h
    simp only at hge
    by_cases hx : srv.ContainerName = excludedName
    · rw [serviceLoop_excluded _ _ _ _ _ _ _ _ hx] at h ⊢
      have hge' := serviceLoop_label_ge _ _ _ _ _ _ _ _ h
      simp only at hge'
      obtain ⟨s, i0, w0, h1, h2, h3, h4⟩ := ih _ _ _ h
      obtain ⟨d, hd⟩ : ∃ d, k' - k = d + 1 := ⟨k' - k - 1, by omega⟩
      have hd' : k' - (k + 1) = d := by omega
      rw [hd'] at h1 h4
      refine ⟨s, i0, w0, by rw [hd]; simpa using h1, h2, h3, ?_⟩
      rw [h4, hd]
      constructor
      · rintro ⟨a, b⟩
        refine ⟨a, ?_⟩
        intro j hj s' hs'
        cases j with
        | zero =>
          simp at hs'
          rw [← hs']
          exact hx
        | succ j => exact b j (by omega) s' (by simpa using hs')
      · rintro ⟨a, b⟩
        exact ⟨a, fun j hj s' hs' => b (j + 1) (by omega) s' (by simpa using hs')⟩
    · cases hc : (redeploy rt authStr fuel i srv w).ctl with
      | next i' =>
        have ht := (serviceLoop_next _ _ _ k _ _ more _ _ hx hc).1
        rw [ht, List.mem_append] at h
        rcases h with h | h
        · obtain ⟨st0, hst0, heq⟩ := List.mem_map.mp h
          cases heq
          refine ⟨srv, i, w, by simp, hx, ?_, by simp [firstProcessed]⟩
          intro st'
          rw [ht, List.mem_append]
          constructor
          · rintro (h' | h')
            · obtain ⟨st1, hst1, heq⟩ := List.mem_map.mp h'
              cases heq
              exact hst1
            · have := serviceLoop_label_ge _ _ _ _ _ _ _ _ h'
              simp at this
          · intro h'
            exact Or.inl (List.mem_map.mpr ⟨st', h', rfl⟩)
        · have hge' := serviceLoop_label_ge _ _ _ _ _ _ _ _ h
          simp only at hge'
          obtain ⟨s, i0, w0, h1, h2, h3, h4⟩ := ih _ _ _ h
          obtain ⟨d, hd⟩ : ∃ d, k' - k = d + 1 := ⟨k' - k - 1, by omega⟩
          have hd' : k' - (k + 1) = d := by omega
          rw [hd'] at h1 h4
          refine ⟨s, i0, w0, by rw [hd]; simpa using h1, h2, ?_, ?_⟩
          · intro st'
            rw [ht, List.mem_append, ← h3 st']
            constructor
            · rintro (h' | h')
              · obtain ⟨st1, hst1, heq⟩ := List.mem_map.mp h'
                cases heq
                omega
              · exact h'
            · intro h'
              exact Or.inr h'
          · have hi' := redeploy_next_counter _ _ _ _ _ _ _ hc
            rw [h4, hd]
            constructor
            · rintro ⟨a, _⟩
              exact absurd a hi'
            · rintro ⟨_, b⟩
              exact absurd (b 0 (by omega) srv (by simp)) hx
      | stop o =>
        have ht := (serviceLoop_stop _ _ _ k _ _ more _ _ hx hc).1
        rw [ht] at h
        obtain ⟨st0, hst0, heq⟩ := List.mem_map.mp h
        cases heq
        refine ⟨srv, i, w, by simp, hx, ?_, by simp [firstProcessed]⟩
        intro st'
        rw [ht]
        constructor
        · intro h'
          obtain ⟨st1, hst1, heq⟩ := List.mem_map.mp h'
          cases heq
          exact hst1
        · intro h'
          exact List.mem_map.mpr ⟨st', h', rfl⟩

theorem errOnlyLast_spec (steps pre post : List Step) (st : Step) (msg : String)
    (h : errOnlyLast steps = true) (hs : steps = pre ++ st :: post) (he : st.err = some msg) :
    post = [] := by
  induction pre generalizing steps with
  | nil =>
    cases post with
    | nil => rfl
    | cons p ps =>
      subst hs
      simp [errOnlyLast, he] at h
  | cons a pre ih =>
    subst hs
    cases hp : pre ++ st :: post with
    | nil => simp at hp
    | cons b rest =>
      rw [List.cons_append, hp] at h
      simp only [errOnlyLast, Bool.and_eq_true] at h
      exact ih (b :: rest) h.2 hp.symm

theorem lastErr_concat (pre : List Step) (st : Step) : lastErr (pre ++ [st]) = st.err := by
  simp [lastErr]

theorem lastErr_some (steps : List Step) (body : String) (h : lastErr steps = some body) :
    ∃ pre st, steps = pre ++ [st] ∧ st.err = some body := by
  unfold lastErr at h
  cases hl : steps.getLast? with
  | none => simp [hl] at h
  | some st =>
    rw [hl] at h
    obtain ⟨pre, hpre⟩ := List.getLast?_eq_some_iff.mp hl
    exact ⟨pre, st, hpre, by simpa using h⟩

theorem serviceLoop_failFast {σ : Type} (rt : Runtime σ) (authStr : String) (fuel : Nat)
    (services : List ServiceConfig) (k i : Nat) (w : σ)
    (pre post : List (Nat × Step)) (k' : Nat) (st : Step) (msg : String)
    (ht : (serviceLoop rt authStr fuel k i services w).trace = pre ++ (k', st) :: post)
    (he : st.err = some msg) :
    post = [] ∧ (serviceLoop rt authStr fuel k i services w).outcome =
      .httpError msg StatusInternalServerError := by
  induction services generalizing k i w pre with
  | nil => simp [serviceLoop_nil] at ht
  | cons srv more ih =>
    by_cases hx : srv.ContainerName = excludedName
    · rw [serviceLoop_excluded _ _ _ _ _ _ _ _ hx] at ht ⊢
      exact ih _ _ _ _ ht
    · cases hc : (redeploy rt authStr fuel i srv w).ctl with
      | next i' =>
        obtain ⟨hT, ho⟩ := serviceLoop_next _ _ _ k _ _ more _ _ hx hc
        rw [ho]
        rw [hT] at ht
        rcases List.append_eq_append_iff.mp ht with ⟨a', _, h2⟩ | ⟨c', h1, h2⟩
        · exact ih _ _ _ _ h2
        · cases c' with
          | nil => exact ih _ _ _ [] (by simpa using h2.symm)
          | cons x c'' =>
            rw [List.cons_append, List.cons_eq_cons] at h2
            have hmem : (k', st) ∈ (redeploy rt authStr fuel i srv w).steps.map (Prod.mk k) := by
              rw [h1, h2.1]
              simp
            obtain ⟨st0, hst0, heq⟩ := List.mem_map.mp hmem
            cases heq
            have := redeploy_next_no_err _ _ _ _ _ _ _ hc st hst0
            rw [this] at he
            cases he
      | stop o =>
        obtain ⟨hT, ho⟩ := serviceLoop_stop _ _ _ k _ _ more _ _ hx hc
        rw [ho]
        rw [hT] at ht
        obtain ⟨l1, l2, hl, _, hl2⟩ := List.map_eq_append_iff.mp ht
        obtain ⟨st0, post0, hl2', hst0, hpost⟩ := List.map_eq_cons_iff.mp hl2
        cases hst0
        subst hl2'
        have hp0 := errOnlyLast_spec _ l1 post0 st msg (redeploy_errOnlyLast _ _ _ _ _ _) hl he
        subst hp0
        have hle : lastErr (redeploy rt authStr fuel i srv w).steps = some msg := by
          rw [hl, lastErr_concat, he]
        have := redeploy_lastErr _ _ _ _ _ _ _ hle
        rw [hc] at this
        cases this
        exact ⟨by simpa using hpost.symm, rfl⟩

theorem serviceLoop_httpError {σ : Type} (rt : Runtime σ) (authStr : String) (fuel : Nat)
    (services : List ServiceConfig) (k i : Nat) (w : σ) (body : String) (status : Nat)
    (h : (serviceLoop rt authStr fuel k i services w).outcome = .httpError body status) :
    status = StatusInternalServerError ∧
      ∃ pre k' st, (serviceLoop rt authStr fuel k i services w).trace = pre ++ [(k', st)] ∧
        st.err = some body := by
  induction services generalizing k i w with
  | nil => simp [serviceLoop_nil] at h
  | cons srv more ih =>
    by_cases hx : srv.ContainerName = excludedName
    · rw [serviceLoop_excluded _ _ _ _ _ _ _ _ hx] at h ⊢
      exact ih _ _ _ h
    · cases hc : (redeploy rt authStr fuel i srv w).ctl with
      | next i' =>
        obtain ⟨hT, ho⟩ := serviceLoop_next _ _ _ k _ _ more _ _ hx hc
        rw [ho] at h
        obtain ⟨h1, pre, k', st, h2, h3⟩ := ih _ _ _ h
        refine ⟨h1, (redeploy rt authStr fuel i srv w).steps.map (Prod.mk k) ++ pre, k', st, ?_, h3⟩
        rw [hT, h2, List.append_assoc]
      | stop o =>
        obtain ⟨hT, ho⟩ := serviceLoop_stop _ _ _ k _ _ more _ _ hx hc
        rw [ho] at h
        subst h
        obtain ⟨h1, h2⟩ := redeploy_httpError _ _ _ _ _ _ _ _ hc
        obtain ⟨pre, st, h3, h4⟩ := lastErr_some _ _ h2
        refine ⟨h1, pre.map (Prod.mk k), k, st, ?_, h4⟩
        rw [hT, h3]
        simp

/-- C2: in every run of `UpdateContainers`, a step that returned an error is
the last step of the trace, whatever the position of its service, and the
response is status 500 with that error's message as body; conversely an error
response is status 500, carries the message of the error returned by the last
step of the trace, and is not written when no step returned an error.  Inside
a health check a failed inspection is the last call issued, and the health
check returns its error. -/
theorem UpdateContainers_failFast {σ : Type} (rt : Runtime σ) (authStr : String) (fuel : Nat)
    (services : List ServiceConfig) (w : σ) :
    (∀ (pre post : List (Nat × Step)) (k : Nat) (st : Step) (msg : String),
      (UpdateContainers rt authStr fuel services w).trace = pre ++ (k, st) :: post →
      st.err = some msg →
      post = [] ∧ (UpdateContainers rt authStr fuel services w).outcome = .httpError msg 500) ∧
    (∀ (body : String) (status : Nat),
      (UpdateContainers rt authStr fuel services w).outcome = .httpError body status →
      status = 500 ∧
        ∃ pre k st, (UpdateContainers rt authStr fuel services w).trace = pre ++ [(k, st)] ∧
          st.err = some body) ∧
    ((∀ e ∈ (UpdateContainers rt authStr fuel services w).trace, e.2.err = none) →
      ∀ (body : String) (status : Nat),
        (UpdateContainers rt authStr fuel services w).outcome ≠ .httpError body status) ∧
    (∀ (k : Nat) (id ip name : String) (calls : List HCall) (ret : Option (Option String)),
      (k, Step.serverCheck id ip name calls ret) ∈
        (UpdateContainers rt authStr fuel services w).trace →
      ∀ (pre post : List HCall) (c : HCall) (e : String),
        calls = pre ++ c :: post → c.inspectErr = some e →
        post = [] ∧ ret = some (some ("error inspecting container: " ++ e))) := by
  refine ⟨fun pre post k st msg ht he => ?_, fun body status h => ?_,
    fun hall body status h => ?_, fun k id ip name calls ret h pre post c e hs hc => ?_⟩
  · exact serviceLoop_failFast rt authStr fuel services 0 0 w pre post k st msg ht he
  · exact serviceLoop_httpError rt authStr fuel services 0 0 w body status h
  · obtain ⟨_, pre, k, st, h2, h3⟩ :=
      serviceLoop_httpError rt authStr fuel services 0 0 w body status h
    have hmem : (k, st) ∈ (UpdateContainers rt authStr fuel services w).trace := by
      unfold UpdateContainers
      rw [h2]
      simp
    have := hall _ hmem
    simp only at this
    rw [this] at h3
    cases h3
  · obtain ⟨srv, i0, w0, _, _, h3, _⟩ :=
      serviceLoop_segment rt authStr fuel services 0 0 w k _ h
    obtain ⟨w5, h5, h6⟩ := redeploy_health_step rt authStr fuel i0 srv w0 id ip name calls ret
      ((h3 _).mp h)
    rw [h5] at hs
    rw [h6]
    exact serverCheck_inspect_last rt fuel id ip name w5 pre post c e hs hc

theorem UpdateContainers_segment {σ : Type} (rt : Runtime σ) (authStr : String) (fuel : Nat)
    (services : List ServiceConfig) (w : σ) (k : Nat) (st : Step)
    (h : (k, st) ∈ (UpdateContainers rt authStr fuel services w).trace) :
    ∃ srv i0 w0, services[k]? = some srv ∧ srv.ContainerName ≠ excludedName ∧
      (∀ st', (k, st') ∈ (UpdateContainers rt authStr fuel services w).trace ↔
        st' ∈ (redeploy rt authStr fuel i0 srv w0).steps) ∧
      (i0 = 0 ↔ firstProcessed services k) := by
  obtain ⟨srv, i0, w0, h1, h2, h3, h4⟩ :=
    serviceLoop_segment rt authStr fuel services 0 0 w k st h
  exact ⟨srv, i0, w0, by simpa using h1, h2, h3, by simpa using h4⟩

/-- C8 as stated fails: two services run the image `ghcr.io/acme/api:1`, every
pull stream reports that image up to date, and the handler still issues an
image-remove call for the second service. -/
theorem UpdateContainers_current_counterexample :
    (1, Step.ImagePull "ghcr.io/acme/api:1" "auth" (.ok acmeCurrentStream)) ∈
      (UpdateContainers (calmRuntime acmeCurrentStream) "auth" 1 acmeServices 0).trace ∧
    reportsUpToDate "ghcr.io/acme/api:1" acmeCurrentStream = true ∧
    (1, Step.ImageRemove "img-api" none) ∈
      (UpdateContainers (calmRuntime acmeCurrentStream) "auth" 1 acmeServices 0).trace := by
  decide

/-- C8, amended: when the pull stream of the service at position `k` holds the
marker `imgStatus`, the status record for the fixed image coordinate
`ghcr.io/joaquinolivero/gleam:linux-arm`, no image-remove call is issued for
that service. -/
theorem UpdateContainers_current {σ : Type} (rt : Runtime σ) (authStr : String) (fuel : Nat)
    (services : List ServiceConfig) (w : σ) (k : Nat) (refStr auth : String) (rd : PullStream)
    (hp : (k, Step.ImagePull refStr auth (.ok rd)) ∈
      (UpdateContainers rt authStr fuel services w).trace)
    (hm : imgStatus <:+: rd.data) :
    ∀ img e, (k, Step.ImageRemove img e) ∉
      (UpdateContainers rt authStr fuel services w).trace := by
  intro img e h
  obtain ⟨srv, i0, w0, _, _, h3, _⟩ := UpdateContainers_segment _ _ _ _ _ _ _ h
  exact marker_not_stale rd hm
    (redeploy_reap_stale rt authStr fuel i0 srv w0 img refStr auth e rd ((h3 _).mp hp)
      ((h3 _).mp h))

theorem take_two_calls (steps : List Step) (s1 s2 : Step) (c1 c2 : Call)
    (h : steps.take 2 = [s1, s2]) (h1 : s1.calls = [c1]) (h2 : s2.calls = [c2]) :
    (steps.flatMap Step.calls).take 2 = [c1, c2] := by
  have hs : steps = [s1, s2] ++ steps.drop 2 := by
    rw [← h, List.take_append_drop]
  rw [hs]
  simp [List.flatMap_cons, h1, h2]

theorem recorder_locating {σ : Type} (rt : Runtime σ) (authStr : String) (fuel i : Nat)
    (srv : ServiceConfig) (w : σ) (containers : List Container) (imgID ctrID : String)
    (hl : (rt.ContainerList w).1 = .ok containers)
    (hc : locate srv.ContainerName containers = .ok (imgID, ctrID)) :
    (redeploy (recorder rt) authStr fuel i srv (w, [])).world.2.take 2 =
      [.ContainerList (.ok containers),
        .ContainerRemove ctrID (rt.ContainerRemove ctrID (rt.ContainerList w).2).1] := by
  rw [(recorder_redeploy rt authStr fuel i srv w []).2.2]
  simp only [List.nil_append]
  exact take_two_calls _ _ _ _ _ (redeploy_locating rt authStr fuel i srv w containers _ _ hl hc)
    rfl rfl

/-- C9 as stated fails.  A live container that bears the name `/web` after a
link name is not found: the captured pair is empty and the remove call the
world receives carries the empty ID.  A container list that holds a container
without a name ends the handler in a panic at `ctr.Names[0]` before any
remove call. -/
theorem locate_spec_counterexample :
    ("/web" ∈ (⟨"c7", ["/proxy/web-link", "/web"], "img-web"⟩ : Container).Names ∧
      locate "web" aliasContainers = .ok ("", "") ∧
      (recordedRun aliasRuntime "auth" 1 [demoService "web" gleamImage] 0).world.2.take 2 =
        [.ContainerList (.ok aliasContainers), .ContainerRemove "" none]) ∧
    (locate "web" [⟨"c0", [], "img-old"⟩] =
        .err "runtime error: index out of range [0] with length 0" ∧
      (recordedRun namelessRuntime "auth" 1 [demoService "web" gleamImage] 0).outcome =
        .panicked "runtime error: index out of range [0] with length 0" ∧
      (recordedRun namelessRuntime "auth" 1 [demoService "web" gleamImage] 0).world.2 =
        [.ContainerList (.ok [⟨"c0", [], "img-old"⟩])]) := by
  decide

/-- C9, amended: for a container list in which every container has a name,
the Locating loop yields the image ID and container ID of the first container
whose first name (`Names[0]`) is "/" followed by the service's container
name, and the pair of empty strings when no container has such a first name;
it raises no error, and the pass through the loop body goes on to the remove
call with the container ID found: the first two calls the world receives are
the list call and the remove call with that ID. -/
theorem locate_spec {σ : Type} (rt : Runtime σ) (authStr : String) (fuel i : Nat)
    (srv : ServiceConfig) (w : σ) (containers : List Container)
    (hl : (rt.ContainerList w).1 = .ok containers)
    (hn : ∀ c ∈ containers, c.Names ≠ []) :
    (∀ c, containers.find? (fun c => c.Names.head? = some ("/" ++ srv.ContainerName)) = some c →
      locate srv.ContainerName containers = .ok (c.ImageID, c.ID) ∧
      (redeploy rt authStr fuel i srv w).steps.take 2 =
        [.ContainerList (.ok containers),
          .ContainerRemove c.ID (rt.ContainerRemove c.ID (rt.ContainerList w).2).1] ∧
      (redeploy (recorder rt) authStr fuel i srv (w, [])).world.2.take 2 =
        [.ContainerList (.ok containers),
          .ContainerRemove c.ID (rt.ContainerRemove c.ID (rt.ContainerList w).2).1]) ∧
    ((∀ c ∈ containers, c.Names.head? ≠ some ("/" ++ srv.ContainerName)) →
      locate srv.ContainerName containers = .ok ("", "") ∧
      (redeploy rt authStr fuel i srv w).steps.take 2 =
        [.ContainerList (.ok containers),
          .ContainerRemove "" (rt.ContainerRemove "" (rt.ContainerList w).2).1] ∧
      (redeploy (recorder rt) authStr fuel i srv (w, [])).world.2.take 2 =
        [.ContainerList (.ok containers),
          .ContainerRemove "" (rt.ContainerRemove "" (rt.ContainerList w).2).1]) := by
  have hf := locate_find srv.ContainerName containers hn
  constructor
  · intro c hc
    rw [hc] at hf
    exact ⟨hf, redeploy_locating rt authStr fuel i srv w containers _ _ hl hf,
      recorder_locating rt authStr fuel i srv w containers _ _ hl hf⟩
  · intro hnone
    have : containers.find? (fun c => c.Names.head? = some ("/" ++ srv.ContainerName)) = none := by
      rw [List.find?_eq_none]
      intro c hc
      simpa using hnone c hc
    rw [this] at hf
    exact ⟨hf, redeploy_locating rt authStr fuel i srv w containers _ _ hl hf,
      recorder_locating rt authStr fuel i srv w containers _ _ hl hf⟩

/-- C9 amended, on concrete lists: of two containers named `/api` the first
is taken, and for a service without a live container the world receives a
remove call with the empty ID. -/
theorem locate_spec_witness :
    locate "api" liveContainers = .ok ("img-api", "c2") ∧
    locate "worker" liveContainers = .ok ("", "") ∧
    (redeploy (recorder crowdedRuntime) "auth" 1 0 (demoService "worker" gleamImage)
        (0, [])).world.2.take 2 =
      [.ContainerList (.ok liveContainers), .ContainerRemove "" none] :=
  ⟨((locate_spec crowdedRuntime "auth" 1 0 (demoService "api" gleamImage) 0
      liveContainers rfl (by decide)).1 ⟨"c2", ["/api"], "img-api"⟩ (by decide)).1,
    ((locate_spec crowdedRuntime "auth" 1 0 (demoService "worker" gleamImage) 0
      liveContainers rfl (by decide)).2 (by decide)).1,
    ((locate_spec crowdedRuntime "auth" 1 0 (demoService "worker" gleamImage) 0
      liveContainers rfl (by decide)).2 (by decide)).2.2⟩

/-- C10 fails on the code: for a service that meets the stated invariant and
declares no volume, the Configuring step panics with an index out of range at
`srv.Volumes[0]`, and the handler ends in that panic after it has removed the
old container and pulled the image. -/
theorem configure_no_volume_panics :
    noVolumeService.ContainerName ≠ "" ∧ noVolumeService.Image ≠ "" ∧
    configure noVolumeService = .err "runtime error: index out of range [0] with length 0" ∧
    (UpdateContainers (calmRuntime freshStream) "auth" 1 [noVolumeService] 0).outcome =
      .panicked "runtime error: index out of range [0] with length 0" ∧
    (UpdateContainers (calmRuntime freshStream) "auth" 1 [noVolumeService] 0).trace.map
        (fun e => e.2.kind) = [.list, .remove, .pull, .fresh] := by
  decide

/-- C2 in a world where the container of the second of three services fails
to start: the response is 500 with the start error as body, the failed start
is the last step of the trace, and no step is issued for the third service. -/
theorem UpdateContainers_failFast_witness :
    (UpdateContainers startFailsRuntime "auth" 1 threeServices 0).outcome =
      .httpError "driver failed programming external connectivity" 500 ∧
    (500 = 500 ∧ ∃ pre k st,
      (UpdateContainers startFailsRuntime "auth" 1 threeServices 0).trace = pre ++ [(k, st)] ∧
      st.err = some "driver failed programming external connectivity") ∧
    (UpdateContainers startFailsRuntime "auth" 1 threeServices 0).trace.getLast? =
      some (1, .ContainerStart "new-api"
        (some "driver failed programming external connectivity")) ∧
    (∀ e ∈ (UpdateContainers startFailsRuntime "auth" 1 threeServices 0).trace, e.1 ≠ 2) :=
  ⟨by decide,
    (UpdateContainers_failFast startFailsRuntime "auth" 1 threeServices 0).2.1 _ _ (by decide),
    by decide, by decide⟩

/-- C8 amended, in the calm world with pulls that report the fixed image
coordinate up to date: no image-remove call is issued for the second
service. -/
theorem UpdateContainers_current_witness :
    (1, Step.ImagePull gleamImage "auth" (.ok gleamCurrentStream)) ∈
      (UpdateContainers (calmRuntime gleamCurrentStream) "auth" 1 threeServices 0).trace ∧
    imgStatus <:+: gleamCurrentStream.data ∧
    ∀ img e, (1, Step.ImageRemove img e) ∉
      (UpdateContainers (calmRuntime gleamCurrentStream) "auth" 1 threeServices 0).trace :=
  ⟨by decide, List.infix_append' [] imgStatus ['\r', '\n'],
    UpdateContainers_current (calmRuntime gleamCurrentStream) "auth" 1 threeServices 0 1
      gleamImage "auth" gleamCurrentStream (by decide)
      (List.infix_append' [] imgStatus ['\r', '\n'])⟩


end Router
